import Mathlib

/-!
Verification of the immukv log engine and its file extension.

The definitions below are a shallow embedding of the Python sources
(`src/python/src/immukv/...` and `src/packages/files/python/src/immukv_files/...`):
pure helpers become Lean functions, the S3-backed operations become explicit
state passing over small world models, and fallible code returns `Option` or
`Except`.  Python `float` JSON values are outside the model; every value the
claims touch is `null`/`bool`/`int`/`str`/`array`/`object`.
-/

namespace ImmuKV

/-- JSON values as produced by Python's `json` module, minus floats
(embedding of `immukv.json_helpers.JSONValue`). -/
inductive JSONValue where
  | null : JSONValue
  | bool (b : Bool) : JSONValue
  | int (n : Int) : JSONValue
  | str (s : String) : JSONValue
  | arr (xs : List JSONValue) : JSONValue
  | obj (fields : List (String × JSONValue)) : JSONValue

/-- Lowercase hexadecimal digit, as emitted by CPython for `\uXXXX` escapes
and by `bytes.hex()`. -/
def hexDigit (n : Nat) : Char :=
  if n < 10 then Char.ofNat (48 + n) else Char.ofNat (87 + n)

/-- Four-digit lowercase hex, the `%04x` of CPython's `\uXXXX` escape. -/
def u4hex (n : Nat) : String :=
  String.mk [hexDigit (n / 4096 % 16), hexDigit (n / 256 % 16),
             hexDigit (n / 16 % 16), hexDigit (n % 16)]

/-- Escape one character the way CPython's `json.dumps` with `ensure_ascii=True`
does: `"` and backslash get a backslash, the usual control shorthands apply,
every other character outside 0x20..0x7e becomes `\uXXXX` (with a surrogate
pair above 0xFFFF), and the rest pass through. -/
def escapeChar (c : Char) : String :=
  let n := c.toNat
  if n = 34 then "\\\""
  else if n = 92 then "\\\\"
  else if n = 8 then "\\b"
  else if n = 9 then "\\t"
  else if n = 10 then "\\n"
  else if n = 12 then "\\f"
  else if n = 13 then "\\r"
  else if n < 32 || n > 126 then
    if n < 65536 then "\\u" ++ u4hex n
    else "\\u" ++ u4hex (55296 + (n - 65536) / 1024) ++ "\\u" ++ u4hex (56320 + (n - 65536) % 1024)
  else String.singleton c

/-- CPython's `py_encode_basestring_ascii`: quote and escape a JSON string. -/
def encodeBasestringAscii (s : String) : String :=
  "\"" ++ String.join (s.data.map escapeChar) ++ "\""

/-- Code-point lexicographic comparison of character lists: the order Python's
`sorted` uses on `str` keys. -/
def charListLt : List Char → List Char → Bool
  | [], [] => false
  | [], _ :: _ => true
  | _ :: _, [] => false
  | a :: as, b :: bs =>
    if a.toNat < b.toNat then true
    else if b.toNat < a.toNat then false
    else charListLt as bs

/-- String comparison by code points (Python `str` ordering). -/
def strLt (a b : String) : Bool := charListLt a.data b.data

/-- Stable insertion of a key/value pair into a key-sorted list. -/
def insertByKey (p : String × String) : List (String × String) → List (String × String)
  | [] => [p]
  | q :: qs => if strLt p.1 q.1 then p :: q :: qs else q :: insertByKey p qs

/-- Stable insertion sort by key: the effect of `sort_keys=True`. -/
def sortPairs : List (String × String) → List (String × String)
  | [] => []
  | p :: ps => insertByKey p (sortPairs ps)

mutual

/-- Canonical JSON text: `json.dumps(data, sort_keys=True, separators=(",", ":"))`
with `ensure_ascii=True` (embedding of `dumps_canonical` before the UTF-8
encode).  Object fields are serialized first and then sorted by key, which
agrees with sorting first because sorting only permutes the pairs. -/
def dumpsStr : JSONValue → String
  | .null => "null"
  | .bool true => "true"
  | .bool false => "false"
  | .int n => toString n
  | .str s => encodeBasestringAscii s
  | .arr xs => "[" ++ String.intercalate "," (dumpsArr xs) ++ "]"
  | .obj fs =>
    "\x7b" ++
      String.intercalate ","
        ((sortPairs (dumpsObj fs)).map (fun p => encodeBasestringAscii p.1 ++ ":" ++ p.2)) ++
    "\x7d"

/-- Serialize the elements of a JSON array in order. -/
def dumpsArr : List JSONValue → List String
  | [] => []
  | x :: xs => dumpsStr x :: dumpsArr xs

/-- Serialize the values of a JSON object, keeping keys attached. -/
def dumpsObj : List (String × JSONValue) → List (String × String)
  | [] => []
  | (k, v) :: fs => (k, dumpsStr v) :: dumpsObj fs

end

/-- UTF-8 encoding of one code point. -/
def utf8EncodeChar (n : Nat) : List Nat :=
  if n < 128 then [n]
  else if n < 2048 then [192 + n / 64, 128 + n % 64]
  else if n < 65536 then [224 + n / 4096, 128 + n / 64 % 64, 128 + n % 64]
  else [240 + n / 262144, 128 + n / 4096 % 64, 128 + n / 64 % 64, 128 + n % 64]

/-- UTF-8 bytes of a string (Python `str.encode("utf-8")`). -/
def utf8Bytes (s : String) : List Nat :=
  (s.data.map (fun c => utf8EncodeChar c.toNat)).flatten

/-- `dumps_canonical` from `immukv/_internal/json_helpers.py`: canonical JSON
serialized and UTF-8 encoded to bytes. -/
def dumps_canonical (data : JSONValue) : List Nat :=
  utf8Bytes (dumpsStr data)

/-! ### SHA-256 (embedding of `hashlib.sha256`) -/

/-- 2^32, the word modulus of SHA-256. -/
def M32 : Nat := 4294967296

/-- Addition modulo 2^32. -/
def add32 (a b : Nat) : Nat := (a + b) % M32

/-- Right rotation of a 32-bit word. -/
def rotr (n x : Nat) : Nat := ((x >>> n) ||| (x <<< (32 - n))) % M32

/-- Bitwise complement within 32 bits. -/
def not32 (x : Nat) : Nat := x ^^^ (M32 - 1)

/-- SHA-256 Ch function. -/
def shaCh (x y z : Nat) : Nat := (x &&& y) ^^^ (not32 x &&& z)

/-- SHA-256 Maj function. -/
def shaMaj (x y z : Nat) : Nat := (x &&& y) ^^^ (x &&& z) ^^^ (y &&& z)

/-- SHA-256 big sigma 0. -/
def bsig0 (x : Nat) : Nat := rotr 2 x ^^^ rotr 13 x ^^^ rotr 22 x

/-- SHA-256 big sigma 1. -/
def bsig1 (x : Nat) : Nat := rotr 6 x ^^^ rotr 11 x ^^^ rotr 25 x

/-- SHA-256 small sigma 0. -/
def ssig0 (x : Nat) : Nat := rotr 7 x ^^^ rotr 18 x ^^^ (x >>> 3)

/-- SHA-256 small sigma 1. -/
def ssig1 (x : Nat) : Nat := rotr 17 x ^^^ rotr 19 x ^^^ (x >>> 10)

/-- The 64 SHA-256 round constants (FIPS 180-4, written in decimal). -/
def K256 : List Nat :=
  [1116352408, 1899447441, 3049323471, 3921009573, 961987163, 1508970993,
   2453635748, 2870763221, 3624381080, 310598401, 607225278, 1426881987,
   1925078388, 2162078206, 2614888103, 3248222580, 3835390401, 4022224774,
   264347078, 604807628, 770255983, 1249150122, 1555081692, 1996064986,
   2554220882, 2821834349, 2952996808, 3210313671, 3336571891, 3584528711,
   113926993, 338241895, 666307205, 773529912, 1294757372, 1396182291,
   1695183700, 1986661051, 2177026350, 2456956037, 2730485921, 2820302411,
   3259730800, 3345764771, 3516065817, 3600352804, 4094571909, 275423344,
   430227734, 506948616, 659060556, 883997877, 958139571, 1322822218,
   1537002063, 1747873779, 1955562222, 2024104815, 2227730452, 2361852424,
   2428436474, 2756734187, 3204031479, 3329325298]

/-- The SHA-256 initial hash state (FIPS 180-4, written in decimal). -/
def H256 : List Nat :=
  [1779033703, 3144134277, 1013904242, 2773480762,
   1359893119, 2600822924, 528734635, 1541459225]

/-- Big-endian 8-byte encoding of a bit length. -/
def be64 (n : Nat) : List Nat :=
  [n / 72057594037927936 % 256, n / 281474976710656 % 256, n / 1099511627776 % 256,
   n / 4294967296 % 256, n / 16777216 % 256, n / 65536 % 256, n / 256 % 256, n % 256]

/-- SHA-256 padding: append 0x80, zeros to 56 mod 64, then the bit length. -/
def padMessage (msg : List Nat) : List Nat :=
  let len := msg.length
  let k := (119 - len % 64) % 64
  msg ++ [128] ++ List.replicate k 0 ++ be64 (len * 8)

/-- Group bytes into big-endian 32-bit words. -/
def bytesToWords : List Nat → List Nat
  | a :: b :: c :: d :: rest => (a * 16777216 + b * 65536 + c * 256 + d) :: bytesToWords rest
  | _ => []

/-- Split a word list into 16-word blocks. -/
def blocksOf16 : List Nat → List (List Nat)
  | [] => []
  | w :: ws => (w :: ws).take 16 :: blocksOf16 ((w :: ws).drop 16)
termination_by l => l.length
decreasing_by
  simp only [List.length_drop, List.length_cons]
  omega

/-- Extend the message schedule by `n` further words. -/
def extendSchedule : Nat → List Nat → List Nat
  | 0, acc => acc
  | n + 1, acc =>
    let t := acc.length
    let w := add32 (add32 (ssig1 (acc.getD (t - 2) 0)) (acc.getD (t - 7) 0))
                   (add32 (ssig0 (acc.getD (t - 15) 0)) (acc.getD (t - 16) 0))
    extendSchedule n (acc ++ [w])

/-- One SHA-256 round on the eight-word working state. -/
def shaRound (kt wt : Nat) : List Nat → List Nat
  | [a, b, c, d, e, f, g, h] =>
    let t1 := add32 h (add32 (bsig1 e) (add32 (shaCh e f g) (add32 kt wt)))
    let t2 := add32 (bsig0 a) (shaMaj a b c)
    [add32 t1 t2, a, b, c, add32 d t1, e, f, g]
  | s => s

/-- Compress one 16-word block into the hash state. -/
def compressBlock (h : List Nat) (block : List Nat) : List Nat :=
  let ws := extendSchedule 48 block
  let final := (List.zip K256 ws).foldl (fun st p => shaRound p.1 p.2 st) h
  List.zipWith add32 h final

/-- Big-endian bytes of one 32-bit word. -/
def wordToBytes (w : Nat) : List Nat :=
  [w / 16777216 % 256, w / 65536 % 256, w / 256 % 256, w % 256]

/-- SHA-256 digest (32 bytes) of a byte string. -/
def sha256 (msg : List Nat) : List Nat :=
  (((blocksOf16 (bytesToWords (padMessage msg))).foldl compressBlock H256).map wordToBytes).flatten

/-- Lowercase hex of one byte (`bytes.hex()` per byte). -/
def byteToHex (b : Nat) : String :=
  String.mk [hexDigit (b / 16 % 16), hexDigit (b % 16)]

/-- Lowercase hex of a byte string (`bytes.hex()`). -/
def bytesToHex (bs : List Nat) : String :=
  String.join (bs.map byteToHex)

/-! ### Core data model (`immukv/_internal/types.py`, `immukv/types.py`) -/

/-- The exact field set hashed for a log entry
(`LogEntryForHash` in `immukv/_internal/types.py`). -/
structure LogEntryForHash where
  sequence : Int
  key : String
  value : JSONValue
  timestamp_ms : Int
  previous_hash : String

/-- The Python dict that `hash_compute` serializes: the five hashed fields in
their `TypedDict` insertion order (the serializer sorts keys anyway). -/
def entryForHashJson (d : LogEntryForHash) : JSONValue :=
  .obj [("sequence", .int d.sequence), ("key", .str d.key), ("value", d.value),
        ("timestamp_ms", .int d.timestamp_ms), ("previous_hash", .str d.previous_hash)]

/-- `hash_compute` from `immukv/_internal/types.py`: `sha256:` followed by the
lowercase hex SHA-256 of the canonical JSON bytes of the five hashed fields. -/
def hash_compute (d : LogEntryForHash) : String :=
  "sha256:" ++ bytesToHex (sha256 (dumps_canonical (entryForHashJson d)))

/-- `hash_genesis` from `immukv/_internal/types.py`. -/
def hash_genesis : String := "sha256:genesis"

/-- `sequence_initial`: the sequence before the first entry. -/
def sequence_initial : Int := -1

/-- `sequence_next`: increment a sequence number. -/
def sequence_next (s : Int) : Int := s + 1

/-- `LogEntryDict` from `immukv/_internal/types.py`; the two optional fields
hold `None` before serialization. -/
structure LogEntryDict where
  sequence : Int
  key : String
  value : JSONValue
  timestamp_ms : Int
  previous_version_id : Option String
  previous_hash : String
  hash : String
  previous_key_object_etag : Option String

/-- A `None`-able string as it sits in the Python dict before stripping. -/
def optStr : Option String → JSONValue
  | some s => .str s
  | none => .null

/-- The log-entry dict as an association list, in the insertion order of the
dict literal in `ImmuKVClient.set` (step 4). -/
def logEntryFields (e : LogEntryDict) : List (String × JSONValue) :=
  [("sequence", .int e.sequence), ("key", .str e.key), ("value", e.value),
   ("timestamp_ms", .int e.timestamp_ms), ("previous_version_id", optStr e.previous_version_id),
   ("previous_hash", .str e.previous_hash), ("hash", .str e.hash),
   ("previous_key_object_etag", optStr e.previous_key_object_etag)]

/-- Is this JSON value Python's `None`? -/
def isNull : JSONValue → Bool
  | .null => true
  | _ => false

/-- `strip_none_values` from `immukv/_internal/json_helpers.py`: drop
top-level `None` values, without recursing. -/
def strip_none_values (fields : List (String × JSONValue)) : List (String × JSONValue) :=
  fields.filter (fun p => !isNull p.2)

/-- The bytes written to `_log.json` in Phase 1 of `set`:
`dumps_canonical(strip_none_values(log_entry))`. -/
def log_put_body (e : LogEntryDict) : List Nat :=
  dumps_canonical (.obj (strip_none_values (logEntryFields e)))

/-- `KeyObjectDict` from `immukv/_internal/types.py`. -/
structure KeyObjectDict where
  sequence : Int
  key : String
  value : JSONValue
  timestamp_ms : Int
  log_version_id : String
  hash : String
  previous_hash : String

/-- The key-object dict as an association list in its literal insertion
order.  Neither Phase 2 of `set` nor `_repair_orphan` strips `None` values
from this dict before serializing. -/
def keyObjectFields (k : KeyObjectDict) : List (String × JSONValue) :=
  [("sequence", .int k.sequence), ("key", .str k.key), ("value", k.value),
   ("timestamp_ms", .int k.timestamp_ms), ("log_version_id", .str k.log_version_id),
   ("hash", .str k.hash), ("previous_hash", .str k.previous_hash)]

/-- The bytes written to `keys/<key>.json`: `dumps_canonical(key_data)`. -/
def key_put_body (k : KeyObjectDict) : List Nat :=
  dumps_canonical (.obj (keyObjectFields k))

/-- `RawEntry` from `immukv/_internal/types.py`: a log entry whose value is
kept as raw JSON, never decoded. -/
structure RawEntry where
  key : String
  value : JSONValue
  timestamp_ms : Int
  version_id : String
  sequence : Int
  previous_version_id : Option String
  hash : String
  previous_hash : String
  previous_key_object_etag : Option String

/-- Public `Entry` dataclass from `immukv/types.py`, generic in the user
value type. -/
structure Entry (V : Type) where
  key : String
  value : V
  timestamp_ms : Int
  version_id : String
  sequence : Int
  previous_version_id : Option String
  hash : String
  previous_hash : String
  previous_key_object_etag : Option String

/-- A botocore `ClientError`, identified by its error code
(the payload of `get_error_code`; `s3_helpers.py` is not under study, so the
code is carried directly — modelled from the spec's error taxonomy). -/
structure ClientErr where
  code : String
deriving DecidableEq

/-- Conditional-put mode of the S3 adapter. -/
inductive PutCond where
  | if_match (etag : String)
  | if_none_match_star
deriving DecidableEq

/-! ### The `set` write path (`ImmuKVClient.set`) -/

/-- What `_get_latest_and_repair` hands back to `set`’s retry loop (the
`LatestLogState` TypedDict, minus the repair outputs that only update
caches). -/
structure PreflightState where
  log_etag : Option String
  prev_version_id : Option String
  prev_hash : String
  sequence : Option Int

/-- The `NoSuchKey`/`404` branch of `_get_latest_and_repair`: no log object
exists yet, so genesis hash and initial sequence. -/
def firstWritePreflight : PreflightState :=
  ⟨none, none, hash_genesis, some sequence_initial⟩

/-- Steps 2–4 of `set`: the new sequence (`sequence_next` when the preflight
carried one, else 0), the hash over exactly the five hashed fields, and the
complete log-entry dict. -/
def buildLogEntry (key : String) (encoded : JSONValue) (pre : PreflightState)
    (current_key_etag : Option String) (now_ms : Int) : LogEntryDict :=
  let new_sequence : Int :=
    match pre.sequence with
    | some s => sequence_next s
    | none => 0
  let entry_hash := hash_compute ⟨new_sequence, key, encoded, now_ms, pre.prev_hash⟩
  { sequence := new_sequence, key := key, value := encoded, timestamp_ms := now_ms,
    previous_version_id := pre.prev_version_id, previous_hash := pre.prev_hash,
    hash := entry_hash, previous_key_object_etag := current_key_etag }

/-- The condition `set` puts on the log object: `IfMatch` when the log
existed, else `IfNoneMatch="*"`. -/
def logPutCond (pre : PreflightState) : PutCond :=
  match pre.log_etag with
  | some e => .if_match e
  | none => .if_none_match_star

/-- The condition `set` puts on the key mirror: `IfMatch` against the etag
observed in step 1 when the mirror existed, else `IfNoneMatch="*"`. -/
def mirrorPutCond (current_key_etag : Option String) : PutCond :=
  match current_key_etag with
  | some e => .if_match e
  | none => .if_none_match_star

/-- Everything one iteration of `set`’s retry loop observes from the backend:
the preflight result, the mirror `head` result, and the wall clock. -/
structure AttemptEnv where
  pre : PreflightState
  current_key_etag : Option String
  now_ms : Int

/-- Outcome of `set`’s Phase-1 retry loop. -/
inductive SetOutcome where
  | committed (attempt : Nat) (entry : LogEntryDict) (log_version_id : String)
  | raised (e : ClientErr)
  | retry_exhausted (last : Option ClientErr)

/-- The retry loop of `set` (lines 220–336): each attempt rebuilds the entry
from a fresh preflight, commits on a successful conditional put, retries only
on `PreconditionFailed`, re-raises anything else, and after the budget is
spent reports exhaustion with the last error.  `env`/`putRes` index the
backend’s responses by attempt number. -/
def runSetGo (env : Nat → AttemptEnv) (putRes : Nat → Except ClientErr String)
    (key : String) (encoded : JSONValue) :
    Nat → Nat → Option ClientErr → SetOutcome
  | 0, _, last => .retry_exhausted last
  | fuel + 1, i, _ =>
    let a := env i
    let entry := buildLogEntry key encoded a.pre a.current_key_etag a.now_ms
    match putRes i with
    | .ok v => .committed i entry v
    | .error e =>
      if e.code == "PreconditionFailed" then runSetGo env putRes key encoded fuel (i + 1) (some e)
      else .raised e

/-- `max_retries = 10` in `set`. -/
def max_retries : Nat := 10

/-- Phase 1 of `set`: run the retry loop with the budget of 10 attempts. -/
def runSet (env : Nat → AttemptEnv) (putRes : Nat → Except ClientErr String)
    (key : String) (encoded : JSONValue) : SetOutcome :=
  runSetGo env putRes key encoded max_retries 0 none

/-- A stored mirror object: its etag and body bytes. -/
structure MirrorObj where
  etag : String
  body : List Nat
deriving DecidableEq

/-- Modelled from the spec: the backend’s entity tag is a deterministic
digest of the uploaded bytes (S3 computes an MD5; only determinism in the
body matters here). -/
def etag_of (body : List Nat) : String := bytesToHex body

/-- Modelled from the spec (§4.A adapter contract): a conditional put on the
mirror object.  `IfMatch` succeeds only against the current etag, and
`IfNoneMatch="*"` only when the object is absent; failures carry
`PreconditionFailed`, and a denied client gets `AccessDenied`. -/
def s3_put_mirror (m : Option MirrorObj) (cond : PutCond) (body : List Nat)
    (denied : Bool) : Except ClientErr (String × Option MirrorObj) :=
  if denied then .error ⟨"AccessDenied"⟩
  else
    match cond with
    | .if_match e =>
      match m with
      | some obj =>
        if obj.etag == e then .ok (etag_of body, some ⟨etag_of body, body⟩)
        else .error ⟨"PreconditionFailed"⟩
      | none => .error ⟨"PreconditionFailed"⟩
    | .if_none_match_star =>
      match m with
      | some _ => .error ⟨"PreconditionFailed"⟩
      | none => .ok (etag_of body, some ⟨etag_of body, body⟩)

/-- The world `set` Phase 2 acts on: the log object’s versions and the key
mirror for the written key. -/
structure World where
  log_versions : List (String × List Nat)
  mirror : Option MirrorObj

/-- Phase 2 of `set` (lines 338–391): put the key object under the
conditional observed in step 1; any failure is swallowed (the etag stays
`None`) and the `Entry` is returned either way.  Only the mirror component
of the world can change. -/
def set_phase2 {V : Type} (key : String) (value : V) (encoded : JSONValue)
    (new_sequence timestamp_ms : Int) (prev_version_id : Option String)
    (prev_hash entry_hash new_log_version_id : String)
    (current_key_etag : Option String) (denied : Bool) (w : World) :
    Except ClientErr (Entry V) × World :=
  let key_data : KeyObjectDict :=
    ⟨new_sequence, key, encoded, timestamp_ms, new_log_version_id, entry_hash, prev_hash⟩
  match s3_put_mirror w.mirror (mirrorPutCond current_key_etag) (key_put_body key_data) denied with
  | .ok (etag, m2) =>
    (.ok ⟨key, value, timestamp_ms, new_log_version_id, new_sequence, prev_version_id,
          entry_hash, prev_hash, some etag⟩,
     ⟨w.log_versions, m2⟩)
  | .error _ =>
    (.ok ⟨key, value, timestamp_ms, new_log_version_id, new_sequence, prev_version_id,
          entry_hash, prev_hash, none⟩,
     w)

/-! ### Chain verification (`verify_log_chain`, `_verify_raw`) -/

/-- `_verify_raw`: recompute the hash over the raw value and compare. -/
def verify_raw (e : RawEntry) : Bool :=
  e.hash == hash_compute ⟨e.sequence, e.key, e.value, e.timestamp_ms, e.previous_hash⟩

/-- The adjacent-pair linkage check of `verify_log_chain` over a newest-first
list: `current.previous_hash == previous.hash`. -/
def chainLinked : List RawEntry → Bool
  | a :: b :: rest => (a.previous_hash == b.hash) && chainLinked (b :: rest)
  | _ => true

/-- `verify_log_chain` over the fetched newest-first raw entries: vacuously
true when empty, else every entry verifies individually and adjacent pairs
link.  (The source returns `False` at the first failure, which is the same
boolean.) -/
def verify_log_chain (entries : List RawEntry) : Bool :=
  if entries.isEmpty then true
  else entries.all verify_raw && chainLinked entries

/-! ### Orphan cache, `get` fallback and `_repair_orphan` -/

/-- `OrphanStatus` from `immukv/_internal/types.py`, minus `checked_at`
(a wall-clock timestamp the claims do not touch).  Every writer of the cache
sets all fields, so the Python `.get` reads are plain field reads here. -/
structure OrphanStatusM where
  is_orphaned : Bool
  orphan_key : Option String
  orphan_entry : Option RawEntry

/-- The `Entry` synthesized from a cached raw orphan entry in `get`
(lines 437–447): the raw value decoded on demand with the user decoder. -/
def entryOfRaw {V : Type} (decoder : JSONValue → V) (raw : RawEntry) : Entry V :=
  ⟨raw.key, decoder raw.value, raw.timestamp_ms, raw.version_id, raw.sequence,
   raw.previous_version_id, raw.hash, raw.previous_hash, raw.previous_key_object_etag⟩

/-- Errors `get` can surface. -/
inductive GetErr where
  | keyNotFound
  | backend (e : ClientErr)
deriving DecidableEq

/-- The `NoSuchKey`/`404` branch of `get` (lines 424–449): return the cached
orphan entry only when the cache says the latest entry is orphaned, for this
very key, with a cached raw entry, and the client cannot write (cached
`_can_write is False` or configured `read_only`); otherwise
`KeyNotFoundError`. -/
def getOnNotFound {V : Type} (read_only : Bool) (can_write : Option Bool)
    (st : Option OrphanStatusM) (key : String) (decoder : JSONValue → V) :
    Except GetErr (Entry V) :=
  match st with
  | none => .error .keyNotFound
  | some s =>
    match s.orphan_entry with
    | none => .error .keyNotFound
    | some raw =>
      if s.is_orphaned && (s.orphan_key == some key)
          && (can_write == some false || read_only) then
        .ok (entryOfRaw decoder raw)
      else .error .keyNotFound

/-- Parsed content of one `keys/<key>.json` object version. -/
structure KeyObjectRecord where
  sequence : Int
  key : String
  value : JSONValue
  timestamp_ms : Int
  log_version_id : String
  hash : String
  previous_hash : String

/-- `entry_from_key_object` from `immukv/_internal/json_helpers.py`:
`version_id` is the stored `log_version_id`; `previous_version_id` and
`previous_key_object_etag` are absent from key objects. -/
def entry_from_key_object {V : Type} (decoder : JSONValue → V) (r : KeyObjectRecord) : Entry V :=
  ⟨r.key, decoder r.value, r.timestamp_ms, r.log_version_id, r.sequence,
   none, r.hash, r.previous_hash, none⟩

/-- Is this error code one of the handled not-found codes
(`get_error_code(e) in ["NoSuchKey", "404"]`)? -/
def notFoundCode (c : String) : Bool := c == "NoSuchKey" || c == "404"

/-- The read dispatch of `get` (lines 417–451): a successful mirror read
decodes to an `Entry`; a not-found error goes to the orphan fallback; every
other `ClientError` re-raises. -/
def getModel {V : Type} (read : Except ClientErr KeyObjectRecord)
    (read_only : Bool) (can_write : Option Bool) (st : Option OrphanStatusM)
    (key : String) (decoder : JSONValue → V) : Except GetErr (Entry V) :=
  match read with
  | .ok r => .ok (entry_from_key_object decoder r)
  | .error e =>
    if notFoundCode e.code then getOnNotFound read_only can_write st key decoder
    else .error (.backend e)

/-- `entry_from_log` from `immukv/_internal/json_helpers.py`: build an
`Entry` from parsed log JSON, with the log object’s own version id passed
explicitly. -/
def entry_from_log {V : Type} (decoder : JSONValue → V) (d : LogEntryDict)
    (version_id : String) : Entry V :=
  ⟨d.key, decoder d.value, d.timestamp_ms, version_id, d.sequence,
   d.previous_version_id, d.hash, d.previous_hash, d.previous_key_object_etag⟩

/-- The not-found codes `get_log_version` handles
(`["NoSuchKey", "NoSuchVersion", "404"]`). -/
def logVersionNotFoundCode (c : String) : Bool :=
  c == "NoSuchKey" || c == "NoSuchVersion" || c == "404"

/-- `get_log_version` (client.py:453–464): a successful versioned read of
the log object decodes via `entry_from_log`; the handled not-found codes
become `KeyNotFoundError`; every other `ClientError` re-raises. -/
def get_log_version {V : Type} (read : Except ClientErr LogEntryDict)
    (version_id : String) (decoder : JSONValue → V) : Except GetErr (Entry V) :=
  match read with
  | .ok d => .ok (entry_from_log decoder d version_id)
  | .error e =>
    if logVersionNotFoundCode e.code then .error .keyNotFound
    else .error (.backend e)

/-- The key-object dict `_repair_orphan` builds from the raw log head
(lines 1010–1018): raw value bytes, no decode/encode round-trip, no `None`
stripping. -/
def repairKeyObject (latest : RawEntry) : KeyObjectDict :=
  ⟨latest.sequence, latest.key, latest.value, latest.timestamp_ms,
   latest.version_id, latest.hash, latest.previous_hash⟩

/-- One run of `_repair_orphan` (lines 967–1078) against the mirror of the
head entry’s key.  In read-only mode (configured, or cached
`_can_write is False`) only a `head` probe runs and the cache is refreshed;
otherwise the mirror is conditionally rewritten from the raw head entry,
`PreconditionFailed` counts as already-repaired, permission denial demotes
the client and caches the orphan, and any other error changes nothing. -/
def repair_orphan (read_only : Bool) (can_write : Option Bool) (latest : RawEntry)
    (denied : Bool) (mirror : Option MirrorObj) :
    (Option Bool × Option OrphanStatusM) × Option MirrorObj :=
  if read_only || can_write == some false then
    match mirror with
    | some _ => ((can_write, some ⟨false, none, none⟩), mirror)
    | none => ((some false, some ⟨true, some latest.key, some latest⟩), mirror)
  else
    let body := key_put_body (repairKeyObject latest)
    let cond := mirrorPutCond latest.previous_key_object_etag
    match s3_put_mirror mirror cond body denied with
    | .ok (_, m2) => ((some true, some ⟨false, none, none⟩), m2)
    | .error e =>
      if e.code == "PreconditionFailed" then
        ((some true, some ⟨false, none, none⟩), mirror)
      else if e.code == "AccessDenied" || e.code == "Forbidden" then
        ((some false, some ⟨true, some latest.key, some latest⟩), mirror)
      else ((none, none), mirror)

/-- The cached write-permission flag after a repair pass: `set`/`get` update
`_can_write` only when the pass returned a verdict. -/
def updateCanWrite (old : Option Bool) (verdict : Option Bool) : Option Bool :=
  match verdict with
  | some b => some b
  | none => old

/-! ### Key listing (`_list_keys_internal`) -/

/-- One `list_objects_v2` page as the client reads it. -/
structure ListPage where
  contents : Option (List String)
  isTruncated : Bool
deriving DecidableEq

/-- Has the key limit been reached (`limit is not None and len(keys) >= limit`)? -/
def limReached : Option Nat → Nat → Bool
  | some l, n => l ≤ n
  | none, _ => false

/-- The inner per-page key collection of `_list_keys_internal`: strip the
base path, keep only `.json` mirrors with the suffix dropped, stop at the
limit.  Returns the grown accumulator and whether the limit was hit. -/
def collectPageKeys (baseLen : Nat) (lim : Option Nat) :
    List String → List String → List String × Bool
  | acc, [] => (acc, false)
  | acc, objKey :: rest =>
    let key_name := objKey.drop baseLen
    if key_name.endsWith ".json" then
      let acc2 := acc ++ [key_name.dropRight 5]
      if limReached lim acc2.length then (acc2, true)
      else collectPageKeys baseLen lim acc2 rest
    else collectPageKeys baseLen lim acc rest

/-- The pagination loop of `_list_keys_internal` without its `except`
handler: consume pages in order, raise the backend error when a fetch
fails, stop at the limit or when a page is not truncated. -/
def listGoRaw (baseLen : Nat) (lim : Option Nat) :
    List (Except ClientErr ListPage) → List String → Except ClientErr (List String)
  | [], acc => .ok acc
  | r :: rest, acc =>
    match r with
    | .error e => .error e
    | .ok page =>
      let cs := page.contents.getD []
      let (acc2, done) := collectPageKeys baseLen lim acc cs
      if done then .ok acc2
      else if page.isTruncated then listGoRaw baseLen lim rest acc2
      else .ok acc2

/-- `_list_keys_internal` (lines 678–722): the whole loop sits inside
`try`/`except ClientError: return []`, so any backend error yields an empty
result list instead of propagating. -/
def list_keys_internal (baseLen : Nat) (lim : Option Nat)
    (fetch : List (Except ClientErr ListPage)) : Except ClientErr (List String) :=
  match listGoRaw baseLen lim fetch [] with
  | .ok ks => .ok ks
  | .error _ => .ok []

/-! ### File extension (`immukv_files/client.py`, `immukv_files/types.py`) -/

/-- `FileMetadata` from `immukv_files/types.py`. -/
structure FileMetadata where
  s3_key : String
  s3_version_id : String
  content_hash : String
  content_length : Int
  content_type : String
  user_metadata : Option (List (String × String))

/-- `DeletedFileMetadata` (tombstone); the `deleted` discriminant is the
constructor. -/
structure DeletedFileMetadata where
  s3_key : String
  deleted_version_id : String

/-- `FileValue = FileMetadata | DeletedFileMetadata`. -/
inductive FileValue where
  | active (m : FileMetadata)
  | deleted (d : DeletedFileMetadata)

/-- `is_deleted_file` type guard. -/
def is_deleted_file : FileValue → Bool
  | .deleted _ => true
  | .active _ => false

/-- A `dict[str, str]` as JSON. -/
def strPairsToJson (m : List (String × String)) : JSONValue :=
  .obj (m.map fun p => (p.1, .str p.2))

/-- `file_value_encoder` from `immukv_files/client.py`: tombstones carry
`deleted`, `s3_key`, `deleted_version_id`; active files carry the five
metadata fields plus `user_metadata` only when present. -/
def file_value_encoder : FileValue → JSONValue
  | .deleted d =>
    .obj [("deleted", .bool true), ("s3_key", .str d.s3_key),
          ("deleted_version_id", .str d.deleted_version_id)]
  | .active m =>
    let base := [("s3_key", .str m.s3_key), ("s3_version_id", .str m.s3_version_id),
                 ("content_hash", .str m.content_hash), ("content_length", .int m.content_length),
                 ("content_type", .str m.content_type)]
    match m.user_metadata with
    | some um => .obj (base ++ [("user_metadata", strPairsToJson um)])
    | none => .obj base

/-- First field with the given key in a JSON object (Python dict lookup on
parsed JSON). -/
def lookupField (fs : List (String × JSONValue)) (k : String) : Option JSONValue :=
  (fs.find? fun p => p.1 == k).map (fun p => p.2)

/-- Read a JSON string. -/
def asStr : Option JSONValue → Option String
  | some (.str s) => some s
  | _ => none

/-- Read a JSON integer. -/
def asInt : Option JSONValue → Option Int
  | some (.int n) => some n
  | _ => none

/-- Read a JSON object of strings as a `dict[str, str]`. -/
def asStrPairs : JSONValue → Option (List (String × String))
  | .obj fs => fs.mapM (fun p =>
      match p.2 with
      | .str s => some (p.1, s)
      | _ => none)
  | _ => none

/-- `file_value_decoder` from `immukv_files/client.py`: a `deleted: true`
field selects the tombstone shape, anything else decodes the active-file
fields; malformed input fails (the Python raises). -/
def file_value_decoder (j : JSONValue) : Option FileValue :=
  match j with
  | .obj fs =>
    match lookupField fs "deleted" with
    | some (.bool true) => do
      let k ← asStr (lookupField fs "s3_key")
      let dv ← asStr (lookupField fs "deleted_version_id")
      pure (.deleted ⟨k, dv⟩)
    | _ => do
      let k ← asStr (lookupField fs "s3_key")
      let sv ← asStr (lookupField fs "s3_version_id")
      let ch ← asStr (lookupField fs "content_hash")
      let cl ← asInt (lookupField fs "content_length")
      let ct ← asStr (lookupField fs "content_type")
      let um :=
        match lookupField fs "user_metadata" with
        | some v => asStrPairs v
        | none => none
      pure (.active ⟨k, sv, ch, cl, ct, um⟩)
  | _ => none

/-- `entry_from_key_object` specialised to the file codec, with the
decoder’s failure propagated. -/
def fileEntryFromKeyObject (r : KeyObjectRecord) : Option (Entry FileValue) :=
  (file_value_decoder r.value).map fun v =>
    ⟨r.key, v, r.timestamp_ms, r.log_version_id, r.sequence, none, r.hash, r.previous_hash, none⟩

/-- Errors of the file extension’s read path.  `typeErr` stands for
Python’s `TypeError`: `history` collects `KeyMarker`/`VersionIdMarker`
entries in `list_params` (client.py:522–525) and applies them as keyword
arguments to `BrandedS3Client.list_object_versions`, whose parameters are
named `key_marker`/`version_id_marker` (s3_client.py:163–168); every call
with a marker set therefore crashes before any S3 traffic, and the
surrounding `except ClientError` does not catch a `TypeError`. -/
inductive FileErr where
  | fileNotFound
  | fileDeleted
  | decodeError
  | typeErr
  | backend (e : ClientErr)
deriving DecidableEq

/-- The collection loop of `history` over one untruncated listing page of
key-object versions (newest first): fetch each listed version, decode it,
track the last key version seen, and return early when the limit is
reached; a decoder failure raises. -/
def histGo (lim : Option Nat) :
    List (String × KeyObjectRecord) → List (Entry FileValue) → Option String →
    Except FileErr (List (Entry FileValue) × Option String)
  | [], acc, lastV => .ok (acc, lastV)
  | (v, r) :: rest, acc, _ =>
    match fileEntryFromKeyObject r with
    | none => .error .decodeError
    | some e =>
      let acc2 := acc ++ [e]
      if limReached lim acc2.length then .ok (acc2, some v)
      else histGo lim rest acc2 (some v)

/-- `history(key, before_version_id, limit)` (client.py:466–573), without a
cached orphan.  With a cursor, `history` sets `key_marker = key_path`
(line 513), so its first listing call passes `KeyMarker=...` to the
snake_case wrapper and raises `TypeError` before reaching S3; only the
cursorless call works, and this model covers its single untruncated page
(a truncated page would feed `NextKeyMarker` into the same crashing keyword
arguments on the next loop iteration). -/
def historyF (versions : List (String × KeyObjectRecord)) (before : Option String)
    (lim : Option Nat) : Except FileErr (List (Entry FileValue) × Option String) :=
  match before with
  | some _ => .error .typeErr
  | none =>
    (histGo lim versions [] none).map fun p => (p.1, if p.1.isEmpty then none else p.2)

/-- The tail of `get_file` after the entry is resolved: tombstones fail
`FileDeleted`, an active entry streams the referenced object version. -/
def streamCheck (fileStore : String → String → Option (List Nat))
    (e : Entry FileValue) : Except FileErr (Entry FileValue × List Nat) :=
  match e.value with
  | .deleted _ => .error .fileDeleted
  | .active m =>
    match fileStore m.s3_key m.s3_version_id with
    | some bytes => .ok (e, bytes)
    | none => .error (.backend ⟨"NoSuchVersion"⟩)

/-- `get_file` (lines 256–311): with a `version_id` the entry would come
from `history(key, version_id, 1)` — which, having a cursor, raises
`TypeError` as modelled in `historyF`, and `get_file` wraps that call in no
handler, so the error propagates (the empty-result → `FileNotFoundError`
and deletion checks below it are unreachable); without a `version_id` the
entry comes from `get(key)` (the mirror), falling back to
`history(key, None, 1)` when the key object is missing; then the deletion
check and the download. -/
def get_file (versions : List (String × KeyObjectRecord))
    (mirror : Option KeyObjectRecord)
    (fileStore : String → String → Option (List Nat))
    (version_id : Option String) : Except FileErr (Entry FileValue × List Nat) :=
  match version_id with
  | some v =>
    match historyF versions (some v) (some 1) with
    | .error err => .error err
    | .ok (es, _) =>
      match es with
      | [] => .error .fileNotFound
      | e :: _ => streamCheck fileStore e
  | none =>
    match mirror with
    | some r =>
      match fileEntryFromKeyObject r with
      | none => .error .decodeError
      | some e => streamCheck fileStore e
    | none =>
      match historyF versions none (some 1) with
      | .error err => .error err
      | .ok (es, _) =>
        match es with
        | [] => .error .fileNotFound
        | e :: _ => streamCheck fileStore e

/-- `ImmuKVClient.verify`: re-encode the value and compare the recomputed
hash with the stored one. -/
def verify_entry {V : Type} (encoder : V → JSONValue) (e : Entry V) : Bool :=
  e.hash == hash_compute ⟨e.sequence, e.key, encoder e.value, e.timestamp_ms, e.previous_hash⟩

/-- `verify_file` (lines 441–488): the entry hash must verify; tombstones
then pass; active files stream the referenced version and compare its
SHA-256 against `content_hash`, with a missing object or version counting
as failure. -/
def verify_file (fileStore : String → String → Option (List Nat))
    (e : Entry FileValue) : Bool :=
  if !verify_entry file_value_encoder e then false
  else
    match e.value with
    | .deleted _ => true
    | .active m =>
      match fileStore m.s3_key m.s3_version_id with
      | some bytes => ("sha256:" ++ bytesToHex (sha256 bytes)) == m.content_hash
      | none => false

/-! ## Theorems -/

/-- Helper: a committed outcome of the retry loop was built from the
preflight data of the very attempt that succeeded. -/
theorem runSetGo_committed (env : Nat → AttemptEnv) (putRes : Nat → Except ClientErr String)
    (key : String) (encoded : JSONValue) :
    ∀ (fuel i : Nat) (last : Option ClientErr) (j : Nat) (entry : LogEntryDict) (v : String),
      runSetGo env putRes key encoded fuel i last = .committed j entry v →
      entry = buildLogEntry key encoded (env j).pre (env j).current_key_etag (env j).now_ms
        ∧ putRes j = .ok v ∧ i ≤ j := by
  intro fuel
  induction fuel with
  | zero => intro i last j entry v h; simp [runSetGo] at h
  | succ n ih =>
    intro i last j entry v h
    rw [runSetGo] at h
    cases hput : putRes i with
    | ok v0 =>
      rw [hput] at h
      simp only [SetOutcome.committed.injEq] at h
      obtain ⟨hj, he, hv⟩ := h
      subst hj; subst hv
      exact ⟨he.symm, hput, Nat.le_refl i⟩
    | error e =>
      simp only [hput] at h
      by_cases hc : (e.code == "PreconditionFailed") = true
      · rw [if_pos hc] at h
        obtain ⟨h1, h2, h3⟩ := ih (i + 1) (some e) j entry v h
        exact ⟨h1, h2, Nat.le_of_succ_le h3⟩
      · rw [if_neg hc] at h
        simp at h

/-- Helper: when every attempt up to the budget hits `PreconditionFailed`,
the loop ends exhausted carrying the error of the last attempt. -/
theorem runSetGo_exhausted (env : Nat → AttemptEnv) (putRes : Nat → Except ClientErr String)
    (key : String) (encoded : JSONValue) :
    ∀ (n i : Nat) (last : Option ClientErr),
      (∀ k, k < n + 1 → ∃ e, putRes (i + k) = .error e ∧ e.code = "PreconditionFailed") →
      ∃ e, runSetGo env putRes key encoded (n + 1) i last = .retry_exhausted (some e)
        ∧ putRes (i + n) = .error e := by
  intro n
  induction n with
  | zero =>
    intro i last h
    obtain ⟨e, he, hc⟩ := h 0 (by omega)
    simp only [Nat.add_zero] at he
    refine ⟨e, ?_, he⟩
    simp [runSetGo, he, hc]
  | succ n ih =>
    intro i last h
    obtain ⟨e0, he0, hc0⟩ := h 0 (by omega)
    simp only [Nat.add_zero] at he0
    obtain ⟨e, hrun, hlast⟩ := ih (i + 1) (some e0)
      (fun k hk => by
        obtain ⟨e2, he2, hc2⟩ := h (k + 1) (by omega)
        exact ⟨e2, by rw [show i + 1 + k = i + (k + 1) by omega]; exact he2, hc2⟩)
    refine ⟨e, ?_, by rw [show i + (n + 1) = i + 1 + n by omega]; exact hlast⟩
    simp only [runSetGo, he0, hc0, beq_self_eq_true, if_true]
    exact hrun

/-- Helper: a non-`PreconditionFailed` put error, reached after a streak of
conflicts, is re-raised unchanged. -/
theorem runSetGo_raised (env : Nat → AttemptEnv) (putRes : Nat → Except ClientErr String)
    (key : String) (encoded : JSONValue) :
    ∀ (fuel i j : Nat) (last : Option ClientErr) (e : ClientErr),
      i ≤ j → j < i + fuel →
      (∀ k, i ≤ k → k < j → ∃ e2, putRes k = .error e2 ∧ e2.code = "PreconditionFailed") →
      putRes j = .error e → e.code ≠ "PreconditionFailed" →
      runSetGo env putRes key encoded fuel i last = .raised e := by
  intro fuel
  induction fuel with
  | zero => intro i j last e h1 h2; omega
  | succ n ih =>
    intro i j last e hij hlt hstreak hj hne
    by_cases hcase : i = j
    · subst hcase
      simp [runSetGo, hj, hne]
    · obtain ⟨e2, he2, hc2⟩ := hstreak i (Nat.le_refl i) (by omega)
      simp only [runSetGo, he2, hc2, beq_self_eq_true, if_true]
      exact ih (i + 1) j (some e2) e (by omega) (by omega)
        (fun k hk1 hk2 => hstreak k (by omega) hk2) hj hne

/-- Claim C1 — every log entry produced by `set` stores in `hash` the string
`sha256:` followed by the lowercase hex SHA-256 of the canonical JSON of
exactly the five fields `sequence`, `key`, `value`, `timestamp_ms`,
`previous_hash`; the stored `hash` field survives into the serialized log
body; and no other datum (previous version id, observed mirror etag) moves
the hash. -/
theorem claim_C1_hash_of_log_entry (key : String) (encoded : JSONValue)
    (pre : PreflightState) (cke : Option String) (now_ms : Int) :
    ((buildLogEntry key encoded pre cke now_ms).hash
      = "sha256:" ++ bytesToHex (sha256 (dumps_canonical (JSONValue.obj
          [("sequence", .int (buildLogEntry key encoded pre cke now_ms).sequence),
           ("key", .str key), ("value", encoded),
           ("timestamp_ms", .int now_ms), ("previous_hash", .str pre.prev_hash)]))))
    ∧ (("hash", JSONValue.str (buildLogEntry key encoded pre cke now_ms).hash)
        ∈ strip_none_values (logEntryFields (buildLogEntry key encoded pre cke now_ms)))
    ∧ (∀ (pre2 : PreflightState) (cke2 : Option String),
        pre2.prev_hash = pre.prev_hash → pre2.sequence = pre.sequence →
        (buildLogEntry key encoded pre2 cke2 now_ms).hash
          = (buildLogEntry key encoded pre cke now_ms).hash)
    ∧ (∀ (env : Nat → AttemptEnv) (putRes : Nat → Except ClientErr String)
         (i : Nat) (entry : LogEntryDict) (v : String),
        runSet env putRes key encoded = .committed i entry v →
        entry.hash = hash_compute
          ⟨entry.sequence, key, encoded, (env i).now_ms, (env i).pre.prev_hash⟩) := by
  refine ⟨rfl, ?_, ?_, ?_⟩
  · exact List.mem_filter.mpr ⟨by simp [logEntryFields], rfl⟩
  · intro pre2 cke2 h1 h2
    simp [buildLogEntry, h1, h2]
  · intro env putRes i entry v h
    obtain ⟨hentry, -, -⟩ := runSetGo_committed env putRes key encoded max_retries 0 none i entry v h
    subst hentry
    rfl

/-- Witness for C1: the hash-irrelevance and committed-entry conjuncts at
concrete inputs. -/
theorem claim_C1_witness :
    ((buildLogEntry "k" (.int 1) ⟨some "et", some "pv", hash_genesis, some (-1)⟩ (some "ke") 7).hash
      = (buildLogEntry "k" (.int 1) firstWritePreflight none 7).hash)
    ∧ ((buildLogEntry "k" (.int 1) firstWritePreflight none 7).hash
        = hash_compute ⟨(buildLogEntry "k" (.int 1) firstWritePreflight none 7).sequence,
            "k", .int 1, 7, hash_genesis⟩) := by
  constructor
  · exact (claim_C1_hash_of_log_entry "k" (.int 1) firstWritePreflight none 7).2.2.1
      ⟨some "et", some "pv", hash_genesis, some (-1)⟩ (some "ke") rfl rfl
  · exact (claim_C1_hash_of_log_entry "k" (.int 1) firstWritePreflight none 7).2.2.2
      (fun _ => ⟨firstWritePreflight, none, 7⟩) (fun _ => .ok "v1") 0
      (buildLogEntry "k" (.int 1) firstWritePreflight none 7) "v1" rfl

/-- Placeholder raw entry for positional indexing. -/
def defaultRawEntry : RawEntry :=
  ⟨"", .null, 0, "", 0, none, "", "", none⟩

/-- Helper: the pairwise linkage loop, phrased over positions as the source
writes it (`entries[i].previous_hash == entries[i+1].hash`). -/
theorem chainLinked_iff (l : List RawEntry) :
    chainLinked l = true ↔
      ∀ i, i + 1 < l.length →
        (l.getD i defaultRawEntry).previous_hash = (l.getD (i + 1) defaultRawEntry).hash := by
  induction l with
  | nil => simp [chainLinked]
  | cons a tl ih =>
    cases tl with
    | nil =>
      simp only [chainLinked, List.length_cons, List.length_nil, true_iff]
      intro i hi
      omega
    | cons b rest =>
      rw [chainLinked, Bool.and_eq_true, ih]
      constructor
      · rintro ⟨h1, h2⟩ i hi
        cases i with
        | zero => simpa using beq_iff_eq.mp h1
        | succ j =>
          have hj : j + 1 < (b :: rest).length := by
            simp only [List.length_cons] at hi ⊢
            omega
          have := h2 j hj
          simpa using this
      · intro h
        refine ⟨beq_iff_eq.mpr ?_, fun j hj => ?_⟩
        · simpa using h 0 (by simp only [List.length_cons]; omega)
        · have := h (j + 1) (by simp only [List.length_cons] at hj ⊢; omega)
          simpa using this

/-- Counterexample entry for C2: a single-entry log whose stored hash is
self-consistent but whose `previous_hash` is not the genesis sentinel (for
example the head of a truncated chain). -/
def nonGenesisHead : RawEntry :=
  { key := "k", value := .int 1, timestamp_ms := 1, version_id := "v1", sequence := 3,
    previous_version_id := none,
    hash := hash_compute ⟨3, "k", .int 1, 1,
      "sha256:aaaaaaaaaaaaaaaaaaaaaaaaaaaaaaaaaaaaaaaaaaaaaaaaaaaaaaaaaaaaaaaa"⟩,
    previous_hash := "sha256:aaaaaaaaaaaaaaaaaaaaaaaaaaaaaaaaaaaaaaaaaaaaaaaaaaaaaaaaaaaaaaaa",
    previous_key_object_etag := none }

/-- Counterexample for C2: `verify_log_chain` accepts a non-empty log whose
oldest entry’s `previous_hash` is not `sha256:genesis` — the genesis check
the claim requires does not exist in the code. -/
theorem claim_C2_counterexample :
    verify_log_chain [nonGenesisHead] = true
      ∧ nonGenesisHead.previous_hash ≠ hash_genesis := by
  constructor
  · show verify_log_chain [nonGenesisHead] = true
    simp only [verify_log_chain, List.isEmpty_cons, Bool.false_eq_true, if_false,
      List.all_cons, List.all_nil, chainLinked, Bool.and_true, verify_raw]
    exact beq_self_eq_true _
  · decide

/-- Claim C2 (amended) — `verify_log_chain` without a limit over a non-empty
log returns true iff every fetched entry’s recomputed hash equals its stored
hash and every adjacent newest-first pair `(newer, older)` has
`newer.previous_hash == older.hash`; the oldest entry’s `previous_hash` is
never compared against the genesis sentinel. -/
theorem claim_C2_chain_verification (entries : List RawEntry) :
    verify_log_chain entries = true ↔
      ((∀ e ∈ entries, verify_raw e = true)
        ∧ ∀ i, i + 1 < entries.length →
            (entries.getD i defaultRawEntry).previous_hash
              = (entries.getD (i + 1) defaultRawEntry).hash) := by
  cases entries with
  | nil => simp [verify_log_chain]
  | cons a tl =>
    rw [verify_log_chain]
    simp only [List.isEmpty_cons, Bool.false_eq_true, if_false, Bool.and_eq_true,
      List.all_eq_true, chainLinked_iff]

/-- Witness for C2: the amended equivalence applied to the empty log. -/
theorem claim_C2_witness :
    (∀ e ∈ ([] : List RawEntry), verify_raw e = true)
      ∧ ∀ i, i + 1 < ([] : List RawEntry).length →
          (([] : List RawEntry).getD i defaultRawEntry).previous_hash
            = (([] : List RawEntry).getD (i + 1) defaultRawEntry).hash :=
  (claim_C2_chain_verification []).mp rfl

/-- Claim C3 — on a first-ever write (no log object, no mirror) `set` uses
`IfNoneMatch="*"` on both puts, and the committed first entry has sequence 0,
genesis `previous_hash`, and a serialized body carrying neither
`previous_version_id` nor `previous_key_object_etag`. -/
theorem claim_C3_first_write (key : String) (encoded : JSONValue) (now_ms : Int) :
    logPutCond firstWritePreflight = .if_none_match_star
    ∧ mirrorPutCond (none : Option String) = .if_none_match_star
    ∧ (buildLogEntry key encoded firstWritePreflight none now_ms).sequence = 0
    ∧ (buildLogEntry key encoded firstWritePreflight none now_ms).previous_hash = hash_genesis
    ∧ (∀ p ∈ strip_none_values
          (logEntryFields (buildLogEntry key encoded firstWritePreflight none now_ms)),
        p.1 ≠ "previous_version_id" ∧ p.1 ≠ "previous_key_object_etag") := by
  refine ⟨rfl, rfl, by simp [buildLogEntry, firstWritePreflight, sequence_next, sequence_initial],
    rfl, ?_⟩
  intro p hp
  have h2 := List.mem_filter.mp hp
  have hmem := h2.1
  have hpred := h2.2
  simp only [logEntryFields, List.mem_cons, List.not_mem_nil, or_false] at hmem
  rcases hmem with h | h | h | h | h | h | h | h <;> subst h <;>
    simp_all [isNull, buildLogEntry, firstWritePreflight, optStr]

/-- Witness for C3: the serialized-body conjunct at a concrete first write. -/
theorem claim_C3_witness :
    (("sequence", JSONValue.int 0) ∈ strip_none_values
        (logEntryFields (buildLogEntry "k" (.int 1) firstWritePreflight none 7)))
      ∧ ("sequence" ≠ "previous_version_id" ∧ "sequence" ≠ "previous_key_object_etag") := by
  have hmem : ("sequence", JSONValue.int 0) ∈ strip_none_values
      (logEntryFields (buildLogEntry "k" (.int 1) firstWritePreflight none 7)) := by
    refine List.mem_filter.mpr ⟨?_, rfl⟩
    simp [logEntryFields, buildLogEntry, firstWritePreflight, sequence_next, sequence_initial]
  exact ⟨hmem, (claim_C3_first_write "k" (.int 1) 7).2.2.2.2 ("sequence", JSONValue.int 0) hmem⟩

/-- Constant backend view used by the C4 witness. -/
def envW4 : Nat → AttemptEnv := fun _ => ⟨firstWritePreflight, none, 7⟩

/-- Backend responses for the C4 witness: every log put conflicts. -/
def putResW4 : Nat → Except ClientErr String := fun _ => .error ⟨"PreconditionFailed"⟩

/-- Backend responses for the C4 witness: two conflicts, then access denied. -/
def putResW4b : Nat → Except ClientErr String := fun i =>
  if i < 2 then .error ⟨"PreconditionFailed"⟩ else .error ⟨"AccessDenied"⟩

/-- Claim C4 — the retry loop of `set`: a committed entry is always built
from the preflight of its own attempt (nothing cached across restarts),
ten straight `PreconditionFailed` responses exhaust the budget and surface
the last backend error, and any other put error is raised without retrying. -/
theorem claim_C4_retry_loop (env : Nat → AttemptEnv) (putRes : Nat → Except ClientErr String)
    (key : String) (encoded : JSONValue) :
    (∀ (i : Nat) (entry : LogEntryDict) (v : String),
        runSet env putRes key encoded = .committed i entry v →
        entry = buildLogEntry key encoded (env i).pre (env i).current_key_etag (env i).now_ms)
    ∧ ((∀ i, i < max_retries → ∃ e, putRes i = .error e ∧ e.code = "PreconditionFailed") →
        ∃ e, runSet env putRes key encoded = .retry_exhausted (some e)
          ∧ putRes 9 = .error e)
    ∧ (∀ (j : Nat) (e : ClientErr), j < max_retries →
        (∀ k, k < j → ∃ e2, putRes k = .error e2 ∧ e2.code = "PreconditionFailed") →
        putRes j = .error e → e.code ≠ "PreconditionFailed" →
        runSet env putRes key encoded = .raised e) := by
  refine ⟨?_, ?_, ?_⟩
  · intro i entry v h
    exact (runSetGo_committed env putRes key encoded max_retries 0 none i entry v h).1
  · intro h
    have := runSetGo_exhausted env putRes key encoded 9 0 none
      (fun k hk => by simpa using h k (by simpa [max_retries] using hk))
    simpa [runSet, max_retries] using this
  · intro j e hj hstreak hput hne
    exact runSetGo_raised env putRes key encoded max_retries 0 j none e (Nat.zero_le j)
      (by simpa [max_retries] using hj) (fun k _ hk2 => hstreak k hk2) hput hne

/-- Witness for C4: budget exhaustion under constant conflicts, and an
immediate raise on a non-conflict error after two conflicts. -/
theorem claim_C4_witness :
    (∃ e, runSet envW4 putResW4 "k" (.int 1) = .retry_exhausted (some e)
        ∧ putResW4 9 = .error e)
    ∧ runSet envW4 putResW4b "k" (.int 1) = .raised ⟨"AccessDenied"⟩ := by
  constructor
  · exact (claim_C4_retry_loop envW4 putResW4 "k" (.int 1)).2.1
      (fun i _ => ⟨⟨"PreconditionFailed"⟩, rfl, rfl⟩)
  · refine (claim_C4_retry_loop envW4 putResW4b "k" (.int 1)).2.2 2 ⟨"AccessDenied"⟩
      (by simp [max_retries]) (fun k hk => ⟨⟨"PreconditionFailed"⟩, by simp [putResW4b, hk], rfl⟩)
      (by simp [putResW4b]) (by simp)

/-- Claim C5 — once Phase 1 committed, `set` returns the committed `Entry`
whatever the mirror put does: failures (including `PreconditionFailed`) only
leave the resulting etag empty and the world’s mirror untouched, and the
log versions are never modified in Phase 2. -/
theorem claim_C5_phase2_swallowed {V : Type} (key : String) (value : V) (encoded : JSONValue)
    (new_sequence timestamp_ms : Int) (prev_version_id : Option String)
    (prev_hash entry_hash new_log_version_id : String)
    (current_key_etag : Option String) (denied : Bool) (w : World) :
    ∃ ke w2,
      set_phase2 key value encoded new_sequence timestamp_ms prev_version_id
          prev_hash entry_hash new_log_version_id current_key_etag denied w
        = (.ok ⟨key, value, timestamp_ms, new_log_version_id, new_sequence,
                prev_version_id, entry_hash, prev_hash, ke⟩, w2)
      ∧ w2.log_versions = w.log_versions
      ∧ (∀ e, s3_put_mirror w.mirror (mirrorPutCond current_key_etag)
            (key_put_body ⟨new_sequence, key, encoded, timestamp_ms,
              new_log_version_id, entry_hash, prev_hash⟩) denied = .error e →
          w2 = w ∧ ke = none) := by
  rw [set_phase2]
  cases hput : s3_put_mirror w.mirror (mirrorPutCond current_key_etag)
      (key_put_body ⟨new_sequence, key, encoded, timestamp_ms,
        new_log_version_id, entry_hash, prev_hash⟩) denied with
  | ok p =>
    refine ⟨some p.1, ⟨w.log_versions, p.2⟩, ?_, rfl, ?_⟩
    · simp
    · intro e he
      simp at he
  | error e0 =>
    refine ⟨none, w, by simp, rfl, fun e _ => ⟨rfl, rfl⟩⟩

/-- Witness for C5: a concrete Phase-2 `PreconditionFailed` still returns
the committed entry and leaves the world unchanged. -/
theorem claim_C5_witness :
    ∃ ke w2,
      set_phase2 "k" (37 : Nat) (.int 37) 0 7 none hash_genesis "sha256:h" "lv1"
          none false ⟨[("lv1", [1])], some ⟨"et", [2]⟩⟩
        = (.ok ⟨"k", 37, 7, "lv1", 0, none, "sha256:h", hash_genesis, ke⟩, w2)
      ∧ w2.log_versions = [("lv1", [1])]
      ∧ (∀ e, s3_put_mirror (some ⟨"et", [2]⟩) (mirrorPutCond none)
            (key_put_body ⟨0, "k", .int 37, 7, "lv1", "sha256:h", hash_genesis⟩) false
              = .error e →
          w2 = ⟨[("lv1", [1])], some ⟨"et", [2]⟩⟩ ∧ ke = none) :=
  claim_C5_phase2_swallowed "k" 37 (.int 37) 0 7 none hash_genesis "sha256:h" "lv1"
    none false ⟨[("lv1", [1])], some ⟨"et", [2]⟩⟩

/-- Claim C6 — on a mirror `NotFound`, `get` synthesizes an `Entry` from the
cached raw orphan (decoded with the user decoder) exactly when the cache says
the latest entry is orphaned for this very key and the client is read-only
(configured, or cached write permission false); in every other case it
raises `KeyNotFoundError`. -/
theorem claim_C6_get_orphan_fallback {V : Type} (ro : Bool) (cw : Option Bool)
    (st : Option OrphanStatusM) (key : String) (dec : JSONValue → V) :
    ((∃ ent, getOnNotFound ro cw st key dec = .ok ent) ↔
      (∃ s raw, st = some s ∧ s.is_orphaned = true ∧ s.orphan_key = some key
        ∧ s.orphan_entry = some raw ∧ (cw = some false ∨ ro = true)))
    ∧ (∀ s raw, st = some s → s.is_orphaned = true → s.orphan_key = some key →
        s.orphan_entry = some raw → (cw = some false ∨ ro = true) →
        getOnNotFound ro cw st key dec = .ok (entryOfRaw dec raw))
    ∧ ((¬ ∃ s raw, st = some s ∧ s.is_orphaned = true ∧ s.orphan_key = some key
        ∧ s.orphan_entry = some raw ∧ (cw = some false ∨ ro = true)) →
        getOnNotFound ro cw st key dec = .error .keyNotFound) := by
  have hpos : ∀ s raw, st = some s → s.is_orphaned = true → s.orphan_key = some key →
      s.orphan_entry = some raw → (cw = some false ∨ ro = true) →
      getOnNotFound ro cw st key dec = .ok (entryOfRaw dec raw) := by
    intro s raw hst hio hok hoe hrw
    subst hst
    rcases hrw with h | h <;> simp [getOnNotFound, hoe, hio, hok, h]
  refine ⟨⟨?_, ?_⟩, hpos, ?_⟩
  · rintro ⟨ent, hent⟩
    cases st with
    | none => simp [getOnNotFound] at hent
    | some s =>
      cases hoe : s.orphan_entry with
      | none => simp [getOnNotFound, hoe] at hent
      | some raw =>
        simp only [getOnNotFound, hoe] at hent
        by_cases hcond : (s.is_orphaned && (s.orphan_key == some key)
            && (cw == some false || ro)) = true
        · simp only [Bool.and_eq_true, Bool.or_eq_true, beq_iff_eq] at hcond
          exact ⟨s, raw, rfl, hcond.1.1, hcond.1.2, hoe, hcond.2⟩
        · rw [if_neg hcond] at hent
          simp at hent
  · rintro ⟨s, raw, hst, hio, hok, hoe, hrw⟩
    exact ⟨entryOfRaw dec raw, hpos s raw hst hio hok hoe hrw⟩
  · intro hneg
    cases st with
    | none => simp [getOnNotFound]
    | some s =>
      cases hoe : s.orphan_entry with
      | none => simp [getOnNotFound, hoe]
      | some raw =>
        simp only [getOnNotFound, hoe]
        rw [if_neg]
        intro hcond
        simp only [Bool.and_eq_true, Bool.or_eq_true, beq_iff_eq] at hcond
        exact hneg ⟨s, raw, rfl, hcond.1.1, hcond.1.2, hoe, hcond.2⟩

/-- Cached orphan entry used by the C6 witness. -/
def rawW6 : RawEntry := ⟨"k", .int 5, 1, "v1", 0, none, "sha256:h", hash_genesis, none⟩

/-- Witness for C6: a read-only client with a matching cached orphan gets the
synthesized entry. -/
theorem claim_C6_witness :
    getOnNotFound (V := JSONValue) true none (some ⟨true, some "k", some rawW6⟩) "k"
        (fun j => j)
      = .ok (entryOfRaw (fun j => j) rawW6) :=
  (claim_C6_get_orphan_fallback true none (some ⟨true, some "k", some rawW6⟩) "k"
      (fun j => j)).2.1
    ⟨true, some "k", some rawW6⟩ rawW6 rfl rfl rfl rfl (Or.inr rfl)

/-- Claim C7 — in the repair-write path (not read-only, write permission not
cached false, not denied) a second `_repair_orphan` run from the same log
head is a no-op: it returns exactly the first run’s verdict, orphan status
and mirror state (its put either rewrites the identical canonical bytes or
hits `PreconditionFailed`, which is treated as success), and a single run
either leaves the mirror alone or installs precisely the canonical bytes of
the raw head entry. -/
theorem claim_C7_repair_idempotent (cw : Option Bool) (latest : RawEntry)
    (m0 : Option MirrorObj) (hcw : cw ≠ some false) :
    repair_orphan false
        (updateCanWrite cw (repair_orphan false cw latest false m0).1.1)
        latest false (repair_orphan false cw latest false m0).2
      = repair_orphan false cw latest false m0
    ∧ ((repair_orphan false cw latest false m0).2 = m0
        ∨ (repair_orphan false cw latest false m0).2
          = some ⟨etag_of (key_put_body (repairKeyObject latest)),
                  key_put_body (repairKeyObject latest)⟩) := by
  have hbeq : (cw == some false) = false := by
    cases cw with
    | none => rfl
    | some b =>
      cases b with
      | false => exact absurd rfl hcw
      | true => rfl
  rcases hpke : latest.previous_key_object_etag with _ | petag
  · cases m0 with
    | none =>
      refine ⟨?_, Or.inr ?_⟩ <;>
        simp [repair_orphan, s3_put_mirror, mirrorPutCond, updateCanWrite, hbeq, hpke]
    | some obj =>
      refine ⟨?_, Or.inl ?_⟩ <;>
        simp [repair_orphan, s3_put_mirror, mirrorPutCond, updateCanWrite, hbeq, hpke]
  · cases m0 with
    | none =>
      refine ⟨?_, Or.inl ?_⟩ <;>
        simp [repair_orphan, s3_put_mirror, mirrorPutCond, updateCanWrite, hbeq, hpke]
    | some obj =>
      cases hoe : obj.etag == petag with
      | false =>
        refine ⟨?_, Or.inl ?_⟩ <;>
          simp [repair_orphan, s3_put_mirror, mirrorPutCond, updateCanWrite, hbeq, hpke, hoe]
      | true =>
        cases hoe2 : etag_of (key_put_body (repairKeyObject latest)) == petag with
        | false =>
          refine ⟨?_, Or.inr ?_⟩ <;>
            simp [repair_orphan, s3_put_mirror, mirrorPutCond, updateCanWrite, hbeq, hpke,
              hoe, hoe2]
        | true =>
          refine ⟨?_, Or.inr ?_⟩ <;>
            simp [repair_orphan, s3_put_mirror, mirrorPutCond, updateCanWrite, hbeq, hpke,
              hoe, hoe2]

/-- Log head used by the C7 witness. -/
def latestW7 : RawEntry := ⟨"k", .int 1, 1, "v1", 0, none, "sha256:h", hash_genesis, none⟩

/-- Witness for C7: a fresh client repairing a first-write orphan twice ends
exactly where one run ends. -/
theorem claim_C7_witness :
    repair_orphan false
        (updateCanWrite none (repair_orphan false none latestW7 false none).1.1)
        latestW7 false (repair_orphan false none latestW7 false none).2
      = repair_orphan false none latestW7 false none :=
  (claim_C7_repair_idempotent none latestW7 none (by decide)).1

/-- Payload bytes of the C8 scenario file. -/
def payloadC8 : List Nat := [104, 105, 33]

/-- Active-file metadata of the C8 scenario; its `content_hash` is the real
SHA-256 of the payload. -/
def fileMetaC8 : FileMetadata :=
  ⟨"files/doc", "fv1", "sha256:" ++ bytesToHex (sha256 payloadC8), 3,
   "application/octet-stream", none⟩

/-- The active key-object version of the C8 scenario, hash-consistent. -/
def activeRecC8 : KeyObjectRecord :=
  ⟨0, "doc", file_value_encoder (.active fileMetaC8), 1, "lv0",
   hash_compute ⟨0, "doc", file_value_encoder (.active fileMetaC8), 1, hash_genesis⟩,
   hash_genesis⟩

/-- The tombstone value written by `delete_file` in the C8 scenario. -/
def tombValC8 : JSONValue := file_value_encoder (.deleted ⟨"files/doc", "dm1"⟩)

/-- The tombstone key-object version of the C8 scenario, chained to the
active entry. -/
def tombRecC8 : KeyObjectRecord :=
  ⟨1, "doc", tombValC8, 2, "lv1",
   hash_compute ⟨1, "doc", tombValC8, 2, activeRecC8.hash⟩, activeRecC8.hash⟩

/-- Key-object versions after `delete_file`, newest first: the tombstone at
key version `kv1`, the active entry at key version `kv0`. -/
def versionsC8 : List (String × KeyObjectRecord) := [("kv1", tombRecC8), ("kv0", activeRecC8)]

/-- The file store of the C8 scenario: the payload stays readable at its
original version even after the delete marker. -/
def storeC8 : String → String → Option (List Nat) := fun k v =>
  if k == "files/doc" && v == "fv1" then some payloadC8 else none

/-- Claim C8 (code bug) — `get_file(key, version_id=...)` can never resolve
a historical entry: `history` with a cursor builds `KeyMarker`/
`VersionIdMarker` keyword arguments and applies them to a wrapper whose
parameters are `key_marker`/`version_id_marker`, so Python raises
`TypeError` before any S3 call and `get_file` propagates it.  At the
post-delete scenario, both the active entry’s key version (`kv0`) and the
tombstone’s (`kv1`) crash instead of streaming the payload that the claim,
the spec scenario and `get_file`’s own docstring promise, while the
cursorless read still fails `FileDeleted`. -/
theorem claim_C8_version_read_typeerror :
    (∀ (versions : List (String × KeyObjectRecord)) (v : String) (lim : Option Nat),
      historyF versions (some v) lim = .error .typeErr)
    ∧ get_file versionsC8 (some tombRecC8) storeC8 (some "kv0") = .error .typeErr
    ∧ get_file versionsC8 (some tombRecC8) storeC8 (some "kv1") = .error .typeErr
    ∧ get_file versionsC8 (some tombRecC8) storeC8 none = .error .fileDeleted :=
  ⟨fun _ _ _ => rfl, rfl, rfl, rfl⟩

/-- Counterexample for C9: `_list_keys_internal` meets `AccessDenied` on its
first page fetch and recovers locally with an empty result list instead of
raising the backend error. -/
theorem claim_C9_counterexample :
    list_keys_internal 5 none [.error ⟨"AccessDenied"⟩] = .ok [] := rfl

/-- Claim C9 (amended) — backend `ClientError`s other than the handled
not-found codes propagate to the caller from `get` (the mirror read) and
from `get_log_version`; but `list_keys` and `list_keys_with_prefix` never
propagate a backend `ClientError`: their listing loop sits in a
`try`/`except ClientError` that returns `[]`, so every such error is
recovered locally with an empty result list (only exceptions that are not
a `ClientError` escape that handler). -/
theorem claim_C9_error_propagation {V : Type} (baseLen : Nat) (lim : Option Nat)
    (fetch : List (Except ClientErr ListPage)) (dec : JSONValue → V) :
    (∃ ks, list_keys_internal baseLen lim fetch = .ok ks)
    ∧ (∀ e, listGoRaw baseLen lim fetch [] = .error e →
        list_keys_internal baseLen lim fetch = .ok [])
    ∧ (∀ (ro : Bool) (cw : Option Bool) (st : Option OrphanStatusM) (key : String)
         (e : ClientErr), notFoundCode e.code = false →
        getModel (.error e) ro cw st key dec = .error (.backend e))
    ∧ (∀ (version_id : String) (e : ClientErr), logVersionNotFoundCode e.code = false →
        get_log_version (V := V) (.error e) version_id dec = .error (.backend e)) := by
  refine ⟨?_, ?_, ?_, ?_⟩
  · rw [list_keys_internal]
    cases listGoRaw baseLen lim fetch [] with
    | ok ks => exact ⟨ks, rfl⟩
    | error e => exact ⟨[], rfl⟩
  · intro e he
    rw [list_keys_internal, he]
  · intro ro cw st key e hnf
    simp [getModel, hnf]
  · intro version_id e hnf
    simp [get_log_version, hnf]

/-- Witness for C9: the amended theorem’s local-recovery and both
propagation parts at concrete inputs. -/
theorem claim_C9_witness :
    list_keys_internal 5 none [.error ⟨"AccessDenied"⟩] = .ok []
    ∧ getModel (V := JSONValue) (.error ⟨"AccessDenied"⟩) false none none "k" (fun j => j)
        = .error (.backend ⟨"AccessDenied"⟩)
    ∧ get_log_version (V := JSONValue) (.error ⟨"AccessDenied"⟩) "v1" (fun j => j)
        = .error (.backend ⟨"AccessDenied"⟩) :=
  ⟨(claim_C9_error_propagation 5 none [.error ⟨"AccessDenied"⟩] (fun j => j)).2.1
      ⟨"AccessDenied"⟩ rfl,
   (claim_C9_error_propagation 5 none [.error ⟨"AccessDenied"⟩] (fun j => j)).2.2.1
      false none none "k" ⟨"AccessDenied"⟩ rfl,
   (claim_C9_error_propagation 5 none [.error ⟨"AccessDenied"⟩] (fun j => j)).2.2.2
      "v1" ⟨"AccessDenied"⟩ rfl⟩

/-- Claim C10 — when the encoder yields JSON `null`, the hash is computed
over a canonical document that carries `"value": null`, yet the log body is
serialized from the `None`-stripped dict and so omits `value` entirely,
while the Phase-2 key-mirror dict keeps `"value": null`; the serialized log
document therefore differs from the hashed document. -/
theorem claim_C10_null_value (key : String) (pre : PreflightState)
    (cke : Option String) (now_ms : Int) (lv : String) :
    ((buildLogEntry key JSONValue.null pre cke now_ms).hash
      = hash_compute ⟨(buildLogEntry key JSONValue.null pre cke now_ms).sequence,
          key, JSONValue.null, now_ms, pre.prev_hash⟩)
    ∧ (("value", JSONValue.null) ∈
        [("sequence", JSONValue.int (buildLogEntry key JSONValue.null pre cke now_ms).sequence),
         ("key", JSONValue.str key), ("value", JSONValue.null),
         ("timestamp_ms", JSONValue.int now_ms), ("previous_hash", JSONValue.str pre.prev_hash)])
    ∧ (entryForHashJson ⟨(buildLogEntry key JSONValue.null pre cke now_ms).sequence,
          key, JSONValue.null, now_ms, pre.prev_hash⟩
        = JSONValue.obj
            [("sequence",
              JSONValue.int (buildLogEntry key JSONValue.null pre cke now_ms).sequence),
             ("key", JSONValue.str key), ("value", JSONValue.null),
             ("timestamp_ms", JSONValue.int now_ms),
             ("previous_hash", JSONValue.str pre.prev_hash)])
    ∧ (∀ p ∈ strip_none_values
          (logEntryFields (buildLogEntry key JSONValue.null pre cke now_ms)),
        p.1 ≠ "value")
    ∧ (("value", JSONValue.null) ∈ keyObjectFields
        ⟨(buildLogEntry key JSONValue.null pre cke now_ms).sequence, key, JSONValue.null,
         now_ms, lv, (buildLogEntry key JSONValue.null pre cke now_ms).hash, pre.prev_hash⟩)
    ∧ (key_put_body ⟨(buildLogEntry key JSONValue.null pre cke now_ms).sequence, key,
          JSONValue.null, now_ms, lv, (buildLogEntry key JSONValue.null pre cke now_ms).hash,
          pre.prev_hash⟩
        = dumps_canonical (JSONValue.obj (keyObjectFields
            ⟨(buildLogEntry key JSONValue.null pre cke now_ms).sequence, key, JSONValue.null,
             now_ms, lv, (buildLogEntry key JSONValue.null pre cke now_ms).hash,
             pre.prev_hash⟩)))
    ∧ (JSONValue.obj (strip_none_values
          (logEntryFields (buildLogEntry key JSONValue.null pre cke now_ms)))
        ≠ entryForHashJson ⟨(buildLogEntry key JSONValue.null pre cke now_ms).sequence,
            key, JSONValue.null, now_ms, pre.prev_hash⟩) := by
  have hstrip : ∀ p ∈ strip_none_values
      (logEntryFields (buildLogEntry key JSONValue.null pre cke now_ms)), p.1 ≠ "value" := by
    intro p hp
    have h2 := List.mem_filter.mp hp
    have hmem := h2.1
    have hpred := h2.2
    simp only [logEntryFields, List.mem_cons, List.not_mem_nil, or_false] at hmem
    rcases hmem with h | h | h | h | h | h | h | h <;> subst h <;>
      simp_all [isNull, buildLogEntry, optStr]
  refine ⟨rfl, by simp, rfl, hstrip, by simp [keyObjectFields], rfl, ?_⟩
  intro hwrong
  have hinj : strip_none_values (logEntryFields (buildLogEntry key JSONValue.null pre cke now_ms))
      = [("sequence", JSONValue.int (buildLogEntry key JSONValue.null pre cke now_ms).sequence),
         ("key", JSONValue.str key), ("value", JSONValue.null),
         ("timestamp_ms", JSONValue.int now_ms),
         ("previous_hash", JSONValue.str pre.prev_hash)] := by
    injection hwrong
  have hmem : ("value", JSONValue.null) ∈ strip_none_values
      (logEntryFields (buildLogEntry key JSONValue.null pre cke now_ms)) := by
    rw [hinj]; simp
  exact hstrip ("value", JSONValue.null) hmem rfl

/-- Witness for C10: the field-membership conjuncts at a concrete
null-valued write. -/
theorem claim_C10_witness :
    (∀ p ∈ strip_none_values
        (logEntryFields (buildLogEntry "k" JSONValue.null firstWritePreflight none 7)),
      p.1 ≠ "value")
    ∧ JSONValue.obj (strip_none_values
        (logEntryFields (buildLogEntry "k" JSONValue.null firstWritePreflight none 7)))
      ≠ entryForHashJson
          ⟨(buildLogEntry "k" JSONValue.null firstWritePreflight none 7).sequence,
           "k", JSONValue.null, 7, hash_genesis⟩ :=
  ⟨(claim_C10_null_value "k" firstWritePreflight none 7 "lv1").2.2.2.1,
   (claim_C10_null_value "k" firstWritePreflight none 7 "lv1").2.2.2.2.2.2⟩

end ImmuKV
